import Mathlib

/-!
Verification development for the chunk-generation scheduler and the
radius-expansion pipeline of `pumpkin-world/src/generation/generator/mod.rs`.

The Rust code is shallowly embedded: machine integers (`u32`, `usize`) are
modelled as `Nat` with explicit reduction modulo `2 ^ 32` / `2 ^ 64` at the
arithmetic operations the source performs on them, iterator chains are
modelled by the finite lists they denote, and the scheduler loop body is
modelled as an executable step function on an explicit state.
-/

namespace PumpkinGen

/-- Modulus of the Rust `u32` type. -/
def U32 : Nat := 2 ^ 32

/-- Modulus of the Rust `usize` type (64-bit target). -/
def USIZE : Nat := 2 ^ 64

/-- Wrap a natural number into `u32` range, the semantics of release-mode
`u32` arithmetic and of the `as u32` cast. -/
def u32wrap (n : Nat) : Nat := n % U32

/-- The Rust statement `poll_countdown -= 1` on a `usize`: release-mode
wrapping subtraction of one (debug builds abort on the wrap case). -/
def usizeSub1 (n : Nat) : Nat := (n + (USIZE - 1)) % USIZE

/-- `struct LoadRequest { origin: i32, radius: u32 }` (source line 143).
`radius` of an actual request satisfies `radius < U32`. -/
structure LoadRequest where
  origin : Int
  radius : Nat
deriving DecidableEq

/-- `const LIGHT_RADIUS: u32 = 1` (source line 148). -/
def LIGHT_RADIUS : Nat := 1

/-- `const CARVER_RADIUS: u32 = LIGHT_RADIUS + 1` (source line 149). -/
def CARVER_RADIUS : Nat := LIGHT_RADIUS + 1

/-- `const BIOME_RADIUS: u32 = CARVER_RADIUS + 1` (source line 150). -/
def BIOME_RADIUS : Nat := CARVER_RADIUS + 1

/-- `const STRUCTURE_STARTS_RADIUS: u32 = CARVER_RADIUS + 8` (source line 151). -/
def STRUCTURE_STARTS_RADIUS : Nat := CARVER_RADIUS + 8

/-- `LoadRequest::with_radius` (source lines 196-201). -/
def LoadRequest.with_radius (r : LoadRequest) (radius : Nat) : LoadRequest :=
  { origin := r.origin, radius := radius }

/-- `struct RingIterator { index: usize, position: i32, radius: u32 }`
(source lines 204-209). -/
structure RingIterator where
  index : Nat
  position : Int
  radius : Nat
deriving DecidableEq

/-- `RingIterator::with_padding` (source lines 212-218): adds the padding to
the `u32` radius field. -/
def RingIterator.with_padding (s : RingIterator) (padding : Nat) : RingIterator :=
  { index := s.index, position := s.position, radius := u32wrap (s.radius + padding) }

/-- `impl From<LoadRequest> for RingIterator` (source lines 221-229). -/
def RingIterator.ofRequest (v : LoadRequest) : RingIterator :=
  { index := 0, position := v.origin, radius := v.radius }

/-- The item type of `LoadRequest::into_iter`: a tuple of five stage ring
iterators (source lines 153-159). -/
structure WorkUnit where
  ring : RingIterator
  light : RingIterator
  carver : RingIterator
  biome : RingIterator
  structureStarts : RingIterator
deriving DecidableEq

/-- The closure applied by `.map` in `LoadRequest::into_iter` at enumeration
index `i` (source lines 182-192): every stage cursor receives
`.with_padding(i as u32)`. -/
def workUnitAt (r : LoadRequest) (i : Nat) : WorkUnit :=
  { ring := (RingIterator.ofRequest (r.with_radius 0)).with_padding (u32wrap i)
    light := (RingIterator.ofRequest (r.with_radius LIGHT_RADIUS)).with_padding (u32wrap i)
    carver := (RingIterator.ofRequest (r.with_radius CARVER_RADIUS)).with_padding (u32wrap i)
    biome := (RingIterator.ofRequest (r.with_radius BIOME_RADIUS)).with_padding (u32wrap i)
    structureStarts :=
      (RingIterator.ofRequest (r.with_radius STRUCTURE_STARTS_RADIUS)).with_padding (u32wrap i) }

/-- The finite sequence denoted by `LoadRequest::into_iter` (source lines
163-193): `repeat_n(tuple, radius).enumerate().map(closure)` yields exactly
`radius` items, the `i`-th being the closure applied at index `i`. -/
def LoadRequest.workUnits (r : LoadRequest) : List WorkUnit :=
  (List.range r.radius).map (workUnitAt r)

/-- Chebyshev (chessboard) distance between two columns (spec glossary). -/
def chebyDist (a b : Int × Int) : Nat :=
  max (a.1 - b.1).natAbs (a.2 - b.2).natAbs

/-- Modelled from the spec: `RingIterator::next` is `todo!()` in the source
(line 235), so the ring enumeration is taken from spec section 4.1: the
perimeter of the square ring of Chebyshev distance `r`, starting at the
corner `(-r, -r)` and proceeding around; `ringPoint o r k` is the `k`-th
perimeter point, for `k` below `8 * r`. -/
def ringPoint (o : Int × Int) (r : Nat) (k : Nat) : Int × Int :=
  if k < 2 * r then (o.1 - r + k, o.2 - r)
  else if k < 4 * r then (o.1 + r, o.2 - r + ((k - 2 * r : Nat) : Int))
  else if k < 6 * r then (o.1 + r - ((k - 4 * r : Nat) : Int), o.2 + r)
  else (o.1 - r, o.2 + r - ((k - 6 * r : Nat) : Int))

/-- Modelled from the spec: the columns of the ring at Chebyshev distance `r`
around `o`, in the stable order of `ringPoint`; the single origin column
when `r = 0` (spec section 4.1). -/
def ringColumns (o : Int × Int) (r : Nat) : List (Int × Int) :=
  if r = 0 then [o] else (List.range (8 * r)).map (ringPoint o r)

/-- Modelled from the spec: the ring-cursor state of spec section 3,
`{origin, current ring distance, index within the ring, target radius}`
(the source struct `RingIterator` keeps `index`/`position`/`radius` but its
`next` body is `todo!()`). -/
structure RingCursor where
  origin : Int × Int
  dist : Nat
  idx : Nat
  radius : Nat
deriving DecidableEq

/-- Modelled from the spec: one `next` step of the ring cursor — terminal
once the distance exceeds the target radius, otherwise yields the next
perimeter point of the current ring and advances, moving to the next ring
after the last point of the current one (spec sections 3 and 4.1). -/
def RingCursor.next (s : RingCursor) : Option ((Int × Int) × RingCursor) :=
  if s.radius < s.dist then none
  else
    match (ringColumns s.origin s.dist).get? s.idx with
    | some c =>
        if s.idx + 1 < (ringColumns s.origin s.dist).length then
          some (c, { s with idx := s.idx + 1 })
        else
          some (c, { s with dist := s.dist + 1, idx := 0 })
    | none => none

/-- Collect up to `n` columns from a ring cursor. -/
def RingCursor.collect (s : RingCursor) : Nat → List (Int × Int)
  | 0 => []
  | n + 1 =>
    match s.next with
    | none => []
    | some (c, s') => c :: s'.collect n

/-- A queued task is the in-flight traversal of one request: the list of its
remaining work units (the denotation of the `LoadRequest::into_iter`
iterator stored in the scheduler queue, source line 246). -/
abbrev Task := List WorkUnit

/-- `task.into_iter()` as pushed into the scheduler queue. -/
def toTask (r : LoadRequest) : Task := r.workUnits

/-- The incoming `crossbeam` channel as seen by the scheduler: the buffered
messages in arrival order, and whether all senders are gone. -/
structure Chan where
  buf : List LoadRequest
  closed : Bool
deriving DecidableEq

/-- The scheduler's owned state in `initialize_generator` (source lines
240-242): the ready queue (head of the list is the queue front, so
`push_front` is `cons` and `pop_back` takes the last element) and the
fairness countdown `poll_countdown : usize`. -/
structure Sched where
  queue : List Task
  countdown : Nat
deriving DecidableEq

/-- The state at the first entry of the scheduler loop: empty queue and
`poll_countdown = 0` (source lines 240-242). -/
def initState : Sched := { queue := [], countdown := 0 }

/-- The drain loop `while let Ok(task) = rx.try_recv() { queue.push_front(..) }`
(source line 245): each received task is pushed to the queue front. -/
def drainInto (msgs : List Task) (q : List Task) : List Task :=
  msgs.foldl (fun acc t => t :: acc) q

/-- The round-boundary block of the loop (source lines 244-249): when the
countdown is zero, non-blockingly drain every pending request into the
queue front and set the countdown to the resulting queue length; otherwise
leave the state unchanged. -/
def boundary (s : Sched) (ch : Chan) : Sched × Chan :=
  if s.countdown = 0 then
    ({ queue := drainInto (ch.buf.map toTask) s.queue
       countdown := (drainInto (ch.buf.map toTask) s.queue).length },
     { buf := [], closed := ch.closed })
  else (s, ch)

/-- Result of one full iteration of the scheduler loop body. -/
inductive StepResult where
  /-- The loop continues with the new scheduler and channel state;
  `serviced` is the task (as popped, its head being the executed work unit)
  that had one work unit executed this iteration, if any. -/
  | ok (s : Sched) (ch : Chan) (serviced : Option Task)
  /-- `rx.recv()` returned `Err`: the `return` on source line 257. -/
  | terminated
  /-- `rx.recv()` blocks: queue empty, channel open and empty. -/
  | blocked
deriving DecidableEq

/-- The dispatch half of the loop body (source lines 250-260): pop the back
task; if it yields a work unit, execute it and push the task to the front,
if it is exhausted drop it; on an empty queue do a blocking `recv`, pushing
the received task or returning on a closed channel. Afterwards the `usize`
countdown is decremented (source line 260). `late` is the list of requests
that arrive in the channel during this iteration, after the boundary drain
point. -/
def dispatch (s : Sched) (ch : Chan) (late : List LoadRequest) : StepResult :=
  let buf1 := ch.buf ++ late
  match s.queue.getLast? with
  | some t =>
    match t with
    | [] =>
        .ok { queue := s.queue.dropLast, countdown := usizeSub1 s.countdown }
          { buf := buf1, closed := ch.closed } none
    | _ :: rest =>
        .ok { queue := rest :: s.queue.dropLast, countdown := usizeSub1 s.countdown }
          { buf := buf1, closed := ch.closed } (some t)
  | none =>
    match buf1 with
    | v :: vs =>
        .ok { queue := [toTask v], countdown := usizeSub1 s.countdown }
          { buf := vs, closed := ch.closed } none
    | [] => if ch.closed then .terminated else .blocked

/-- One full iteration of the `loop` in `initialize_generator` (source lines
243-261): round-boundary handling followed by dispatch and the countdown
decrement. -/
def iterStep (s : Sched) (ch : Chan) (late : List LoadRequest) : StepResult :=
  dispatch (boundary s ch).1 (boundary s ch).2 late

/-- Run several consecutive loop iterations; `lates.length` many, the `k`-th
with the `k`-th entry of `lates` as its mid-iteration arrivals. Returns the
final state together with the trace of serviced tasks, or `none` if an
iteration did not continue normally. -/
def runSteps (s : Sched) (ch : Chan) : List (List LoadRequest) → Option (Sched × Chan × List Task)
  | [] => some (s, ch, [])
  | late :: rest =>
    match iterStep s ch late with
    | .ok s' ch' sv =>
      match runSteps s' ch' rest with
      | some (sf, chf, tr) => some (sf, chf, sv.toList ++ tr)
      | none => none
    | _ => none

/-- One biome- or block-grid store performed by the column fill of
`VanillaGenerator::request_load`: target section index, coordinates within
the section, and the sampled value. -/
structure SectionWrite where
  sectionIdx : Nat
  x : Nat
  offY : Nat
  z : Nat
  val : Nat
deriving DecidableEq

/-- The biome fill loop (source lines 107-123): for each biome-granularity
layer `y` below `heightB = biome_coords::from_block(shape.height)`, the
section index is `y / size` and the in-section offset `y % size`
(`size = BiomePalette::SIZE`); layers whose section index is not below the
section count `n` are skipped (`if let Some(section) = ... get_mut(..)`),
otherwise one store per `(z, x)` pair samples the biome at absolute height
`minYB + y` where `minYB = biome_coords::from_block(shape.min_y)`. -/
def biomeFill (n heightB size : Nat) (minYB : Int) (g : Nat → Int → Nat → Nat) :
    List SectionWrite :=
  (List.range heightB).flatMap fun y =>
    if y / size < n then
      (List.range size).flatMap fun z =>
        (List.range size).map fun x =>
          { sectionIdx := y / size, x := x, offY := y % size, z := z
            val := g x (minYB + (y : Int)) z }
    else []

/-- The block fill loop (source lines 124-138): for each block-granularity
layer `y` below `shape.height`, the code computes
`relative_y = (y as i32 - sections.min_y) as usize` and stores at section
index `relative_y / size`, offset `relative_y % size`
(`size = BlockPalette::SIZE`), sampling at absolute height `min_y + y`;
out-of-range section indices are skipped. -/
def blockFill (n height size : Nat) (minY : Int) (g : Nat → Int → Nat → Nat) :
    List SectionWrite :=
  (List.range height).flatMap fun y =>
    if ((y : Int) - minY).toNat / size < n then
      (List.range size).flatMap fun z =>
        (List.range size).map fun x =>
          { sectionIdx := ((y : Int) - minY).toNat / size, x := x
            offY := ((y : Int) - minY).toNat % size, z := z
            val := g x (minY + (y : Int)) z }
    else []

/-- The biome-layer-to-section mapping of the biome fill (source lines
109-110): layer `y` goes to section `y / size` at offset `y % size`. -/
def biomeSectionIndex (size y : Nat) : Nat := y / size

/-- The block-layer-to-section mapping of the block fill (source lines
125-127): the code first shifts, `relative_y = (y as i32 - min_y) as usize`,
and then stores at section `relative_y / size`. -/
def blockSectionIndex (size : Nat) (minY : Int) (y : Nat) : Nat :=
  ((y : Int) - minY).toNat / size

theorem u32wrap_eq_of_lt {n : Nat} (h : n < 2 ^ 32) : u32wrap n = n := by
  simp only [u32wrap, U32]
  omega

theorem workUnits_length (r : LoadRequest) : (LoadRequest.workUnits r).length = r.radius := by
  simp [LoadRequest.workUnits]

theorem workUnits_getElem (r : LoadRequest) (i : Nat) (h : i < r.radius) :
    (LoadRequest.workUnits r)[i]? = some (workUnitAt r i) := by
  simp [LoadRequest.workUnits, List.getElem?_map, List.getElem?_range, h]

theorem workUnitAt_radii (r : LoadRequest) (i : Nat) (h : i + 10 < 2 ^ 32) :
    (workUnitAt r i).ring.radius = i ∧
    (workUnitAt r i).light.radius = i + 1 ∧
    (workUnitAt r i).carver.radius = i + 2 ∧
    (workUnitAt r i).biome.radius = i + 3 ∧
    (workUnitAt r i).structureStarts.radius = i + 10 := by
  have hi : u32wrap i = i := u32wrap_eq_of_lt (by omega)
  simp only [workUnitAt, RingIterator.with_padding, RingIterator.ofRequest,
    LoadRequest.with_radius, LIGHT_RADIUS, CARVER_RADIUS, BIOME_RADIUS,
    STRUCTURE_STARTS_RADIUS, hi, u32wrap, U32]
  omega

/-- Claim C1 (corrected): the claim asserts that `LoadRequest::into_iter`
yields `R + 1` work units for a request of radius `R`, with one unit for
radius `0`. The code's `repeat_n(.., self.radius as usize)` yields exactly
`R` items, so a radius-`0` request yields no work unit at all: the
enumeration at radius `0` is empty, not a singleton. -/
theorem claim_C1_counterexample :
    ¬ (LoadRequest.workUnits { origin := 0, radius := 0 }).length = 0 + 1 := by
  decide

/-- Claim C1 (amended): `LoadRequest::into_iter` yields exactly `R` work
units (not `R + 1`), the `i`-th (zero-based, `i < R`) being the work unit
for ring distance `i` (its terrain-stage cursor carries radius `i`), so the
sequence is ordered by increasing ring distance; a radius-`0` request
yields no work unit. -/
theorem claim_C1_amended (r : LoadRequest) :
    (LoadRequest.workUnits r).length = r.radius ∧
    (∀ i, i < r.radius → (LoadRequest.workUnits r)[i]? = some (workUnitAt r i)) ∧
    (∀ i, i < r.radius → i < 2 ^ 32 → (workUnitAt r i).ring.radius = i) := by
  refine ⟨workUnits_length r, fun i hi => workUnits_getElem r i hi, fun i hi h32 => ?_⟩
  have hi' : u32wrap i = i := u32wrap_eq_of_lt h32
  simp [workUnitAt, RingIterator.with_padding, RingIterator.ofRequest,
    LoadRequest.with_radius, hi', u32wrap_eq_of_lt h32]

/-- Witness for claim C1 (amended) at the concrete request with origin `0`
and radius `3`, taking `i = 1`. -/
theorem claim_C1_witness :
    (LoadRequest.workUnits { origin := 0, radius := 3 }).length = 3 ∧
    (LoadRequest.workUnits { origin := 0, radius := 3 })[1]? =
      some (workUnitAt { origin := 0, radius := 3 } 1) ∧
    (workUnitAt { origin := 0, radius := 3 } 1).ring.radius = 1 :=
  ⟨(claim_C1_amended { origin := 0, radius := 3 }).1,
   (claim_C1_amended { origin := 0, radius := 3 }).2.1 1 (by decide),
   (claim_C1_amended { origin := 0, radius := 3 }).2.2 1 (by decide) (by norm_num)⟩

/-- Claim C3 (corrected): the claim asserts the padded radii equal
`i + {0, 1, 2, 3, 10}` for every ring distance `i` of every request. Since
the radius field is a `u32` and `RingIterator::with_padding` adds to it, the
request of radius `4294967295` (`u32::MAX`) has a work unit at ring distance
`i = 4294967294` whose structure-starts cursor carries radius `8`
(`10 + i` reduced mod `2 ^ 32`), not `i + 10`. -/
theorem claim_C3_counterexample :
    (LoadRequest.workUnits { origin := 0, radius := 4294967295 })[4294967294]? =
      some (workUnitAt { origin := 0, radius := 4294967295 } 4294967294) ∧
    (workUnitAt { origin := 0, radius := 4294967295 } 4294967294).structureStarts.radius = 8 ∧
    ¬ (8 : Nat) = 4294967294 + 10 := by
  refine ⟨?_, by decide, by decide⟩
  simp [LoadRequest.workUnits, List.getElem?_map, List.getElem?_range]

/-- Claim C3 (amended): for every request and every ring distance `i` that
has a work unit (`i` below the radius), provided the `u32` padding
arithmetic does not overflow (`i + 10 < 2 ^ 32`), the five stage cursors of
the `i`-th work unit carry radii `i`, `i + 1`, `i + 2`, `i + 3`, `i + 10`
(Terrain, Light, Carver, Biome, StructureStarts), and these are strictly
monotonic with Terrain at most Light; for `i` at least `2 ^ 32 - 10` the
padded radius wraps modulo `2 ^ 32`. -/
theorem claim_C3_amended (r : LoadRequest) (i : Nat) (hi : i < r.radius)
    (h32 : i + 10 < 2 ^ 32) :
    (LoadRequest.workUnits r)[i]? = some (workUnitAt r i) ∧
    (workUnitAt r i).ring.radius = i ∧
    (workUnitAt r i).light.radius = i + 1 ∧
    (workUnitAt r i).carver.radius = i + 2 ∧
    (workUnitAt r i).biome.radius = i + 3 ∧
    (workUnitAt r i).structureStarts.radius = i + 10 ∧
    (workUnitAt r i).ring.radius ≤ (workUnitAt r i).light.radius ∧
    (workUnitAt r i).light.radius < (workUnitAt r i).carver.radius ∧
    (workUnitAt r i).carver.radius < (workUnitAt r i).biome.radius ∧
    (workUnitAt r i).biome.radius < (workUnitAt r i).structureStarts.radius := by
  obtain ⟨h1, h2, h3, h4, h5⟩ := workUnitAt_radii r i h32
  refine ⟨workUnits_getElem r i hi, h1, h2, h3, h4, h5, ?_, ?_, ?_, ?_⟩ <;> omega

/-- Witness for claim C3 (amended) at the request of radius `2` and ring
distance `i = 1`: the radii are `{1, 2, 3, 4, 11}`. -/
theorem claim_C3_witness :
    (LoadRequest.workUnits { origin := 0, radius := 2 })[1]? =
      some (workUnitAt { origin := 0, radius := 2 } 1) ∧
    (workUnitAt { origin := 0, radius := 2 } 1).ring.radius = 1 ∧
    (workUnitAt { origin := 0, radius := 2 } 1).light.radius = 2 ∧
    (workUnitAt { origin := 0, radius := 2 } 1).carver.radius = 3 ∧
    (workUnitAt { origin := 0, radius := 2 } 1).biome.radius = 4 ∧
    (workUnitAt { origin := 0, radius := 2 } 1).structureStarts.radius = 11 := by
  obtain ⟨h1, h2, h3, h4, h5, h6, -⟩ :=
    claim_C3_amended { origin := 0, radius := 2 } 1 (by decide) (by norm_num)
  exact ⟨h1, h2, h3, h4, h5, h6⟩

theorem ringPoint_inj (o : Int × Int) (r : Nat) (hr : 1 ≤ r) :
    ∀ j < 8 * r, ∀ k < 8 * r, ringPoint o r j = ringPoint o r k → j = k := by
  intro j hj k hk h
  simp only [ringPoint] at h
  split_ifs at h <;> simp only [Prod.mk.injEq] at h <;> omega

theorem ringPoint_cheby (o : Int × Int) (r : Nat) (hr : 1 ≤ r) :
    ∀ k < 8 * r, chebyDist (ringPoint o r k) o = r := by
  intro k hk
  simp only [ringPoint, chebyDist]
  split_ifs <;> dsimp only <;> omega

theorem ringColumns_length (o : Int × Int) (r : Nat) (hr : 1 ≤ r) :
    (ringColumns o r).length = 8 * r := by
  rw [ringColumns, if_neg (by omega)]
  simp

theorem ringColumns_nodup (o : Int × Int) (r : Nat) : (ringColumns o r).Nodup := by
  rcases Nat.eq_zero_or_pos r with rfl | hr
  · simp [ringColumns]
  · rw [ringColumns, if_neg (by omega)]
    refine List.Nodup.map_on ?_ (List.nodup_range _)
    intro j hj k hk h
    exact ringPoint_inj o r hr j (List.mem_range.mp hj) k (List.mem_range.mp hk) h

theorem ringColumns_cheby (o : Int × Int) (r : Nat) (hr : 1 ≤ r) :
    ∀ c ∈ ringColumns o r, chebyDist c o = r := by
  intro c hc
  rw [ringColumns, if_neg (by omega)] at hc
  obtain ⟨k, hk, rfl⟩ := List.mem_map.mp hc
  exact ringPoint_cheby o r hr k (List.mem_range.mp hk)

theorem RingCursor.next_eq (s : RingCursor) (h1 : s.dist ≤ s.radius)
    (hidx : s.idx < (ringColumns s.origin s.dist).length) :
    s.next = some ((ringColumns s.origin s.dist).get ⟨s.idx, hidx⟩,
      if s.idx + 1 < (ringColumns s.origin s.dist).length then
        { s with idx := s.idx + 1 }
      else { s with dist := s.dist + 1, idx := 0 }) := by
  rw [RingCursor.next, if_neg (by omega), List.get?_eq_get hidx]
  by_cases hlt : s.idx + 1 < (ringColumns s.origin s.dist).length
  · simp only [if_pos hlt]
  · simp only [if_neg hlt]

theorem RingCursor.collect_succ (s : RingCursor) (n : Nat) :
    s.collect (n + 1) = match s.next with
      | none => []
      | some (c, s') => c :: s'.collect n := rfl

theorem collect_drop (n : Nat) : ∀ (s : RingCursor), s.dist ≤ s.radius →
    s.idx + n = (ringColumns s.origin s.dist).length →
    RingCursor.collect s n = (ringColumns s.origin s.dist).drop s.idx := by
  induction n with
  | zero =>
    intro s h1 h2
    rw [RingCursor.collect, List.drop_eq_nil_of_le (by omega)]
  | succ n ih =>
    intro s h1 h2
    have hidx : s.idx < (ringColumns s.origin s.dist).length := by omega
    rw [RingCursor.collect_succ, RingCursor.next_eq s h1 hidx]
    by_cases hlt : s.idx + 1 < (ringColumns s.origin s.dist).length
    · rw [if_pos hlt]
      dsimp only
      have := ih { s with idx := s.idx + 1 } h1 (by simp only; omega)
      simp only at this
      rw [this, List.drop_eq_getElem_cons hidx]
      rfl
    · rw [if_neg hlt]
      dsimp only
      have hn : n = 0 := by omega
      subst hn
      simp only [RingCursor.collect]
      rw [List.drop_eq_getElem_cons hidx, List.drop_eq_nil_of_le (by omega)]
      rfl

/-- Claim C2 (confirmed; the ring enumeration is modelled from the spec,
since `RingIterator::next` is `todo!()` in the source): for every origin
and ring distance `r` with `1 ≤ r`, the ring at distance `r` consists of
exactly `8 * r` pairwise-distinct columns, each at Chebyshev distance
exactly `r` from the origin, produced in the fixed deterministic order
of `ringPoint`; at `r = 0` the ring is exactly the one origin column; a
cursor whose current distance exceeds the target radius yields nothing;
and a cursor positioned at the start of the ring of distance `r ≤ radius`
emits exactly that ring. -/
theorem claim_C2 :
    (∀ (o : Int × Int) (r : Nat), 1 ≤ r →
      (ringColumns o r).length = 8 * r ∧ (ringColumns o r).Nodup ∧
      ∀ c ∈ ringColumns o r, chebyDist c o = r) ∧
    (∀ o : Int × Int, ringColumns o 0 = [o]) ∧
    (∀ s : RingCursor, s.radius < s.dist → RingCursor.next s = none) ∧
    (∀ (o : Int × Int) (r radius : Nat), r ≤ radius →
      RingCursor.collect { origin := o, dist := r, idx := 0, radius := radius }
        ((ringColumns o r).length) = ringColumns o r) := by
  refine ⟨fun o r hr =>
      ⟨ringColumns_length o r hr, ringColumns_nodup o r, ringColumns_cheby o r hr⟩,
    fun o => by simp [ringColumns],
    fun s h => by rw [RingCursor.next, if_pos h],
    fun o r radius h => ?_⟩
  have := collect_drop ((ringColumns o r).length)
    { origin := o, dist := r, idx := 0, radius := radius } h (by simp)
  simpa using this

/-- Witness for claim C2 at origin `(0, 0)`, ring distance `2`, target
radius `3`. -/
theorem claim_C2_witness :
    (ringColumns (0, 0) 2).length = 8 * 2 ∧
    (ringColumns (0, 0) 2).Nodup ∧
    RingCursor.next { origin := (0, 0), dist := 3, idx := 0, radius := 2 } = none ∧
    RingCursor.collect { origin := (0, 0), dist := 2, idx := 0, radius := 3 }
      ((ringColumns (0, 0) 2).length) = ringColumns (0, 0) 2 :=
  ⟨(claim_C2.1 (0, 0) 2 (by decide)).1, (claim_C2.1 (0, 0) 2 (by decide)).2.1,
   claim_C2.2.2.1 _ (by decide), claim_C2.2.2.2 (0, 0) 2 3 (by decide)⟩

theorem usizeSub1_succ (n : Nat) (h : n + 1 < USIZE) : usizeSub1 (n + 1) = n := by
  simp only [usizeSub1, USIZE] at *
  omega

theorem drainInto_eq (msgs : List Task) : ∀ q, drainInto msgs q = msgs.reverse ++ q := by
  induction msgs with
  | nil => intro q; rfl
  | cons m ms ih =>
    intro q
    show drainInto ms (m :: q) = _
    rw [ih]
    simp

theorem boundary_zero (s : Sched) (ch : Chan) (h : s.countdown = 0) :
    boundary s ch =
      ({ queue := (ch.buf.map toTask).reverse ++ s.queue
         countdown := ((ch.buf.map toTask).reverse ++ s.queue).length },
       { buf := [], closed := ch.closed }) := by
  rw [boundary, if_pos h, drainInto_eq]

theorem boundary_pos (s : Sched) (ch : Chan) (h : s.countdown ≠ 0) :
    boundary s ch = (s, ch) := by
  rw [boundary, if_neg h]

theorem dispatch_concat (q : List Task) (w : WorkUnit) (rest : Task) (c : Nat)
    (ch : Chan) (late : List LoadRequest) :
    dispatch { queue := q ++ [w :: rest], countdown := c } ch late =
      .ok { queue := rest :: q, countdown := usizeSub1 c }
        { buf := ch.buf ++ late, closed := ch.closed } (some (w :: rest)) := by
  rw [dispatch]
  simp

theorem dispatch_concat_nil (q : List Task) (c : Nat) (ch : Chan)
    (late : List LoadRequest) :
    dispatch { queue := q ++ [([] : Task)], countdown := c } ch late =
      .ok { queue := q, countdown := usizeSub1 c }
        { buf := ch.buf ++ late, closed := ch.closed } none := by
  rw [dispatch]
  simp

theorem runSteps_round (lates : List (List LoadRequest)) :
    ∀ (B A : List Task) (ch : Chan), lates.length = B.length → B.length < USIZE →
    (∀ t ∈ B, t ≠ []) →
    runSteps { queue := A ++ B, countdown := B.length } ch lates =
      some ({ queue := B.map List.tail ++ A, countdown := 0 },
        { buf := ch.buf ++ lates.flatten, closed := ch.closed }, B.reverse) := by
  induction lates with
  | nil =>
    intro B A ch hlen hfit hB
    have hB0 : B = [] := List.length_eq_zero.mp hlen.symm
    subst hB0
    simp [runSteps]
  | cons e es ih =>
    intro B A ch hlen hfit hB
    rcases B.eq_nil_or_concat with rfl | ⟨B', t, rfl⟩
    · simp at hlen
    · simp only [List.concat_eq_append] at hlen hfit hB ⊢
      have ht : t ≠ [] := hB t (by simp)
      rcases t with _ | ⟨w, rest⟩
      · exact absurd rfl ht
      have hlen' : (B' ++ [w :: rest]).length = B'.length + 1 := by simp
      rw [hlen', runSteps, iterStep,
        boundary_pos _ _ (by simp only; omega), ← List.append_assoc,
        dispatch_concat, usizeSub1_succ B'.length (by omega)]
      have hes : es.length = B'.length := by simpa using hlen
      dsimp only
      rw [← List.cons_append,
        ih B' (rest :: A) { buf := ch.buf ++ e, closed := ch.closed } hes
          (by omega) (fun u hu => hB u (by simp [hu]))]
      simp

/-- Claim C4 (confirmed): at a round start — the state the round boundary
produces: the countdown equals the number `N` of queued tasks — with each
queued task holding at least `N` remaining work units, the next `N` loop
iterations service each queued task exactly once, from the back of the
queue to the front (the trace of serviced tasks is exactly the reversed
queue), each serviced task being re-inserted at the opposite end with one
unit consumed; requests arriving mid-round (the `lates`) all remain in the
channel buffer, so none of them is serviced before the following round.
`N < USIZE` records that the queue length is a `usize` count. -/
theorem claim_C4 (l : List Task) (ch : Chan) (lates : List (List LoadRequest))
    (h1 : lates.length = l.length) (h2 : l.length < USIZE)
    (h3 : ∀ t ∈ l, l.length ≤ t.length) :
    runSteps { queue := l, countdown := l.length } ch lates =
      some ({ queue := l.map List.tail, countdown := 0 },
        { buf := ch.buf ++ lates.flatten, closed := ch.closed }, l.reverse) := by
  have := runSteps_round lates l [] ch h1 h2 (fun t ht => by
    have h4 := h3 t ht
    have h5 : 0 < l.length := List.length_pos.mpr (List.ne_nil_of_mem ht)
    exact List.ne_nil_of_length_pos (by omega))
  simpa using this

/-- Witness for claim C4: two radius-2 requests queued (each with 2 work
units), countdown 2; a third request arrives mid-round; both tasks are
serviced exactly once in 2 steps and the arrival stays in the channel. -/
theorem claim_C4_witness :
    runSteps { queue := [toTask { origin := 0, radius := 2 },
                         toTask { origin := 5, radius := 2 }], countdown := 2 }
        { buf := [], closed := false }
        [[{ origin := 9, radius := 1 }], []] =
      some ({ queue := [(toTask { origin := 0, radius := 2 }).tail,
                        (toTask { origin := 5, radius := 2 }).tail], countdown := 0 },
        { buf := [{ origin := 9, radius := 1 }], closed := false },
        [toTask { origin := 5, radius := 2 }, toTask { origin := 0, radius := 2 }]) := by
  have := claim_C4 [toTask { origin := 0, radius := 2 }, toTask { origin := 5, radius := 2 }]
    { buf := [], closed := false } [[{ origin := 9, radius := 1 }], []]
    (by decide) (by norm_num [USIZE]) (by decide)
  simpa using this

theorem dispatch_single (w : WorkUnit) (rest : Task) (c : Nat) (ch : Chan)
    (late : List LoadRequest) :
    dispatch { queue := [w :: rest], countdown := c } ch late =
      .ok { queue := [rest], countdown := usizeSub1 c }
        { buf := ch.buf ++ late, closed := ch.closed } (some (w :: rest)) := by
  rw [dispatch]
  simp

theorem dispatch_single_nil (c : Nat) (ch : Chan) (late : List LoadRequest) :
    dispatch { queue := [([] : Task)], countdown := c } ch late =
      .ok { queue := [], countdown := usizeSub1 c }
        { buf := ch.buf ++ late, closed := ch.closed } none := by
  rw [dispatch]
  simp

theorem dispatch_ok (q0 : List Task) (c : Nat) (ch : Chan) (late : List LoadRequest)
    (h : q0 ≠ []) :
    ∃ s' ch' sv, dispatch { queue := q0, countdown := c } ch late = .ok s' ch' sv := by
  rcases q0.eq_nil_or_concat with rfl | ⟨q, t, rfl⟩
  · exact absurd rfl h
  · rw [List.concat_eq_append]
    rcases t with _ | ⟨w, rest⟩
    · exact ⟨_, _, _, dispatch_concat_nil q c ch late⟩
    · exact ⟨_, _, _, dispatch_concat q w rest c ch late⟩

theorem runSteps_append (xs ys : List (List LoadRequest)) :
    ∀ s ch, runSteps s ch (xs ++ ys) =
      match runSteps s ch xs with
      | some (s1, ch1, tr1) =>
        (match runSteps s1 ch1 ys with
         | some (s2, ch2, tr2) => some (s2, ch2, tr1 ++ tr2)
         | none => none)
      | none => none := by
  induction xs with
  | nil =>
    intro s ch
    simp only [List.nil_append, runSteps]
    rcases h : runSteps s ch ys with _ | ⟨s2, ch2, tr2⟩ <;> simp
  | cons x xs ih =>
    intro s ch
    simp only [List.cons_append, runSteps]
    cases iterStep s ch x with
    | ok s' ch' sv =>
      dsimp only
      rw [List.append_eq, ih]
      rcases h1 : runSteps s' ch' xs with _ | ⟨⟨s1, ch1, tr1⟩⟩
      · rfl
      · dsimp only
        rcases h2 : runSteps s1 ch1 ys with _ | ⟨⟨s2, ch2, tr2⟩⟩
        · rfl
        · dsimp only
          rw [List.append_assoc]
    | terminated => rfl
    | blocked => rfl

theorem runSteps_single (j : Nat) : ∀ (t : Task), j ≤ t.length →
    runSteps { queue := [t], countdown := 0 } { buf := [], closed := false }
      (List.replicate j []) =
      some ({ queue := [t.drop j], countdown := 0 }, { buf := [], closed := false },
        (List.range j).map t.drop) := by
  induction j with
  | zero =>
    intro t h
    simp [runSteps]
  | succ j ih =>
    intro t h
    rcases t with _ | ⟨w, rest⟩
    · simp at h
    · rw [List.replicate_succ, runSteps, iterStep, boundary_zero _ _ rfl]
      simp only [List.map_nil, List.reverse_nil, List.nil_append, List.length_cons,
        List.length_nil]
      rw [dispatch_single, usizeSub1_succ 0 (by norm_num [USIZE])]
      dsimp only
      simp only [List.nil_append]
      rw [ih rest (by simpa using h)]
      dsimp only
      simp only [Option.toList_some, List.singleton_append, Option.some.injEq,
        Prod.mk.injEq]
      refine ⟨rfl, trivial, ?_⟩
      rw [List.range_succ_eq_map]
      simp [Function.comp_def]

/-- Claim C6 (corrected): the claim asserts that a task with exactly `k`
work units is fully drained *and removed* after exactly `k` service steps.
The code only discovers exhaustion on the next dequeue: after the `k`-th
service the task (now without remaining units) is pushed back to the queue
front, and only its `(k + 1)`-th dequeue — which executes no work — drops
it. With a single queued task of one work unit and no admissions, after
one service step (one full loop iteration) the queue still holds the
spent task. -/
theorem claim_C6_counterexample :
    runSteps { queue := [toTask { origin := 0, radius := 1 }], countdown := 0 }
        { buf := [], closed := false } [[]] =
      some ({ queue := [[]], countdown := 0 }, { buf := [], closed := false },
        [toTask { origin := 0, radius := 1 }]) ∧
    ¬ ([([] : Task)] : List Task) = [] := by
  constructor <;> decide

/-- Claim C6 (amended): with a single queued task of exactly `k` work units
and no pending or arriving requests, after any `j ≤ k` loop iterations the
task has been serviced `j` times (the trace is its first `j` suffixes) and
sits in the queue with `k - j` units left; after `k` iterations it is fully
drained but still queued, and the `(k + 1)`-th iteration — its `(k + 1)`-th
dequeue, which executes no work unit — removes it, emptying the queue. -/
theorem claim_C6_amended (k : Nat) (t : Task) (hk : t.length = k) :
    (∀ j, j ≤ k →
      runSteps { queue := [t], countdown := 0 } { buf := [], closed := false }
          (List.replicate j []) =
        some ({ queue := [t.drop j], countdown := 0 }, { buf := [], closed := false },
          (List.range j).map t.drop)) ∧
    runSteps { queue := [t], countdown := 0 } { buf := [], closed := false }
        (List.replicate k []) =
      some ({ queue := [([] : Task)], countdown := 0 }, { buf := [], closed := false },
        (List.range k).map t.drop) ∧
    runSteps { queue := [t], countdown := 0 } { buf := [], closed := false }
        (List.replicate (k + 1) []) =
      some ({ queue := [], countdown := 0 }, { buf := [], closed := false },
        (List.range k).map t.drop) := by
  have hdrop : t.drop k = [] := by
    rw [← hk]
    exact List.drop_length t
  refine ⟨fun j hj => runSteps_single j t (by omega), ?_, ?_⟩
  · have := runSteps_single k t (by omega)
    rwa [hdrop] at this
  · rw [List.replicate_succ', runSteps_append, runSteps_single k t (by omega), hdrop]
    dsimp only
    rw [runSteps, iterStep, boundary_zero _ _ rfl]
    simp only [List.map_nil, List.reverse_nil, List.nil_append, List.length_cons,
      List.length_nil]
    rw [dispatch_single_nil, usizeSub1_succ 0 (by norm_num [USIZE])]
    simp [runSteps]

/-- Witness for claim C6 (amended) with a concrete radius-2 request
(`k = 2` work units): drained but still queued after 2 iterations, removed
by the 3rd. -/
theorem claim_C6_witness :
    runSteps { queue := [toTask { origin := 0, radius := 2 }], countdown := 0 }
        { buf := [], closed := false } (List.replicate 2 []) =
      some ({ queue := [([] : Task)], countdown := 0 }, { buf := [], closed := false },
        (List.range 2).map (toTask { origin := 0, radius := 2 }).drop) ∧
    runSteps { queue := [toTask { origin := 0, radius := 2 }], countdown := 0 }
        { buf := [], closed := false } (List.replicate 3 []) =
      some ({ queue := [], countdown := 0 }, { buf := [], closed := false },
        (List.range 2).map (toTask { origin := 0, radius := 2 }).drop) :=
  ⟨(claim_C6_amended 2 (toTask { origin := 0, radius := 2 }) (by decide)).2.1,
   (claim_C6_amended 2 (toTask { origin := 0, radius := 2 }) (by decide)).2.2⟩

/-- Claim C5 (corrected): the claim asserts that on a closed channel the
scheduler loop terminates, abandoning still-pending tasks without executing
their remaining work units. In the code, `rx.recv()` is only reached when
the ready queue is empty, so with the channel closed but a task still
queued the iteration services that task (executes one of its work units)
and continues; here, one radius-1 task is queued, the channel is closed,
and the step is a normal service step, not a termination. -/
theorem claim_C5_counterexample :
    iterStep { queue := [toTask { origin := 0, radius := 1 }], countdown := 1 }
        { buf := [], closed := true } [] =
      .ok { queue := [[]], countdown := 0 } { buf := [], closed := true }
        (some (toTask { origin := 0, radius := 1 })) ∧
    ¬ iterStep { queue := [toTask { origin := 0, radius := 1 }], countdown := 1 }
        { buf := [], closed := true } [] = .terminated := by
  constructor <;> decide

/-- Claim C5 (amended): the scheduler loop reaches `return` only from the
empty-queue blocking receive: when the ready queue is empty and the channel
is closed and empty, the iteration terminates gracefully. If any task is
still queued — even with the channel closed — the iteration is a normal
service step and the loop continues executing the remaining work units, so
at the moment of termination the ready queue is necessarily empty and no
pending task is abandoned. -/
theorem claim_C5_amended (s : Sched) (ch : Chan) (late : List LoadRequest) :
    (s.queue = [] → ch.buf = [] → late = [] → ch.closed = true →
      iterStep s ch late = .terminated) ∧
    (s.queue ≠ [] → ∃ s' ch' sv, iterStep s ch late = .ok s' ch' sv) := by
  obtain ⟨q, c⟩ := s
  obtain ⟨buf, closed⟩ := ch
  constructor
  · intro hq hbuf hlate hcl
    dsimp only at hq hbuf hcl
    subst hq hbuf hlate
    by_cases hc : c = 0
    · rw [iterStep, boundary_zero _ _ hc, dispatch]
      simp [hcl]
    · rw [iterStep, boundary_pos _ _ (by simpa using hc), dispatch]
      simp [hcl]
  · intro hq
    dsimp only at hq
    by_cases hc : c = 0
    · rw [iterStep, boundary_zero _ _ hc]
      exact dispatch_ok _ _ _ _ (by simp [hq])
    · rw [iterStep, boundary_pos _ _ (by simpa using hc)]
      exact dispatch_ok _ _ _ _ hq

/-- Witness for claim C5 (amended): the closed-empty configuration
terminates; a configuration with a queued task yields a normal `ok` step. -/
theorem claim_C5_witness :
    iterStep { queue := [], countdown := 0 } { buf := [], closed := true } [] =
      .terminated ∧
    (∃ s' ch' sv, iterStep { queue := [toTask { origin := 0, radius := 1 }], countdown := 1 }
      { buf := [], closed := true } [] = .ok s' ch' sv) :=
  ⟨(claim_C5_amended { queue := [], countdown := 0 } { buf := [], closed := true } []).1
      rfl rfl rfl rfl,
   (claim_C5_amended { queue := [toTask { origin := 0, radius := 1 }], countdown := 1 }
      { buf := [], closed := true } []).2 (by decide)⟩

/-- Claim C9 (confirmed): whenever the countdown is zero — which includes
the first entry to the loop, where `poll_countdown` is initialized to zero —
the iteration first drains every request pending in the channel into the
ready queue (each pushed to the front, so the buffer joins the queue
reversed, converted by `into_iter`), leaves the channel buffer empty, and
sets the countdown to the length the queue has at exactly that moment; the
rest of the iteration then runs from that drained state. -/
theorem claim_C9 (s : Sched) (ch : Chan) (late : List LoadRequest)
    (h : s.countdown = 0) :
    (boundary s ch).1.queue = (ch.buf.map toTask).reverse ++ s.queue ∧
    (boundary s ch).1.countdown = (boundary s ch).1.queue.length ∧
    (boundary s ch).2.buf = [] ∧
    (boundary s ch).2.closed = ch.closed ∧
    iterStep s ch late = dispatch (boundary s ch).1 (boundary s ch).2 late ∧
    initState.countdown = 0 := by
  refine ⟨?_, ?_, ?_, ?_, rfl, rfl⟩ <;> rw [boundary_zero s ch h]

/-- Witness for claim C9: a zero-countdown state with two buffered
requests drains both to the queue front and sets the countdown to 2. -/
theorem claim_C9_witness :
    (boundary { queue := [], countdown := 0 }
      { buf := [{ origin := 0, radius := 1 }, { origin := 7, radius := 2 }],
        closed := false }).1.queue =
      ([{ origin := 0, radius := 1 }, { origin := 7, radius := 2 }].map toTask).reverse
        ++ [] ∧
    (boundary { queue := [], countdown := 0 }
      { buf := [{ origin := 0, radius := 1 }, { origin := 7, radius := 2 }],
        closed := false }).1.countdown =
    (boundary { queue := [], countdown := 0 }
      { buf := [{ origin := 0, radius := 1 }, { origin := 7, radius := 2 }],
        closed := false }).1.queue.length :=
  ⟨(claim_C9 { queue := [], countdown := 0 }
      { buf := [{ origin := 0, radius := 1 }, { origin := 7, radius := 2 }],
        closed := false } [] rfl).1,
   (claim_C9 { queue := [], countdown := 0 }
      { buf := [{ origin := 0, radius := 1 }, { origin := 7, radius := 2 }],
        closed := false } [] rfl).2.1⟩

/-- Claim C10 (code bug): the claim asserts `poll_countdown -= 1` never
executes with `poll_countdown == 0`. On the blocking-receive path it always
does: from the initial state (empty queue, countdown zero) with an empty
channel, the boundary drain finds nothing and sets the countdown to zero;
the queue is empty, so the iteration blocks in `recv`; when a request then
arrives, it is pushed and the end-of-iteration decrement executes on the
zero `usize` countdown — a panic in debug builds, and in release builds a
wrap to `2 ^ 64 - 1`, deferring the next admission round boundary for about
`2 ^ 64` iterations. -/
theorem claim_C10_bug :
    iterStep initState { buf := [], closed := false } [{ origin := 0, radius := 1 }] =
      .ok { queue := [toTask { origin := 0, radius := 1 }], countdown := USIZE - 1 }
        { buf := [], closed := false } none ∧
    usizeSub1 0 = USIZE - 1 ∧
    USIZE - 1 = 2 ^ 64 - 1 := by
  refine ⟨by decide, by decide, by decide⟩

/-- Claim C7 (code bug): the claim — following the spec's "identically
structured" biome fill — requires block layer `y` (sampling absolute height
`min_y + y`) to be stored at section `y / BlockPalette::SIZE`, offset
`y % BlockPalette::SIZE`, exactly as the biome fill stores layer `y` at
section `y / BiomePalette::SIZE`. The code instead shifts the already
relative loop index again, `relative_y = (y as i32 - min_y) as usize`, while
simultaneously computing `absolute_y = min_y + y` — the two lines treat `y`
inconsistently. For the Overworld shape (`min_y = -64`), layer `y = 0` is
stored at section `(0 - (-64)) / 16 = 4` rather than section `0`; the first
store of the block fill with the Overworld parameters (24 sections, height
384) targets section 4, while the biome fill's first store targets
section 0. -/
theorem claim_C7_bug :
    blockSectionIndex 16 (-64) 0 = 4 ∧
    biomeSectionIndex 16 0 = 0 ∧
    ¬ blockSectionIndex 16 (-64) 0 = biomeSectionIndex 16 0 ∧
    (blockFill 24 384 16 (-64) (fun _ _ _ => 0)).head? =
      some { sectionIdx := 4, x := 0, offY := 0, z := 0, val := 0 } ∧
    (biomeFill 24 96 4 (-16) (fun _ _ _ => 0)).head? =
      some { sectionIdx := 0, x := 0, offY := 0, z := 0, val := 0 } := by
  refine ⟨by decide, by decide, by decide, ?_, ?_⟩ <;> decide

/-- Claim C8 (confirmed): both fills guard every store with
`if let Some(section) = sections.get_mut(section_index)`: a layer whose
computed section index is not below the section count contributes no store
at all (the fills are total functions — nothing fails), every store that
does happen targets an in-range section, and every layer whose computed
section index is in range receives all of its stores. -/
theorem claim_C8 (n heightB height size : Nat) (minYB minY : Int)
    (g g' : Nat → Int → Nat → Nat) :
    (∀ w ∈ biomeFill n heightB size minYB g, w.sectionIdx < n) ∧
    (∀ y x z, y < heightB → x < size → z < size → y / size < n →
      ({ sectionIdx := y / size, x := x, offY := y % size, z := z
         val := g x (minYB + (y : Int)) z } : SectionWrite) ∈
        biomeFill n heightB size minYB g) ∧
    (∀ w ∈ blockFill n height size minY g', w.sectionIdx < n) ∧
    (∀ y x z, y < height → x < size → z < size →
      ((y : Int) - minY).toNat / size < n →
      ({ sectionIdx := ((y : Int) - minY).toNat / size, x := x
         offY := ((y : Int) - minY).toNat % size, z := z
         val := g' x (minY + (y : Int)) z } : SectionWrite) ∈
        blockFill n height size minY g') := by
  refine ⟨?_, ?_, ?_, ?_⟩
  · intro w hw
    simp only [biomeFill, List.mem_flatMap, List.mem_range] at hw
    obtain ⟨y, hy, hw⟩ := hw
    split at hw
    · next hin =>
      simp only [List.mem_flatMap, List.mem_range, List.mem_map] at hw
      obtain ⟨z, hz, x, hx, rfl⟩ := hw
      exact hin
    · simp at hw
  · intro y x z hy hx hz hn
    simp only [biomeFill, List.mem_flatMap, List.mem_range]
    refine ⟨y, hy, ?_⟩
    rw [if_pos hn]
    simp only [List.mem_flatMap, List.mem_range, List.mem_map]
    exact ⟨z, hz, x, hx, rfl⟩
  · intro w hw
    simp only [blockFill, List.mem_flatMap, List.mem_range] at hw
    obtain ⟨y, hy, hw⟩ := hw
    split at hw
    · next hin =>
      simp only [List.mem_flatMap, List.mem_range, List.mem_map] at hw
      obtain ⟨z, hz, x, hx, rfl⟩ := hw
      exact hin
    · simp at hw
  · intro y x z hy hx hz hn
    simp only [blockFill, List.mem_flatMap, List.mem_range]
    refine ⟨y, hy, ?_⟩
    rw [if_pos hn]
    simp only [List.mem_flatMap, List.mem_range, List.mem_map]
    exact ⟨z, hz, x, hx, rfl⟩

/-- Witness for claim C8 with one section of biome size 4 (and block size
4): layer 2 (section 0) is stored, and every store of the fill hits
section 0; the out-of-range layers 4..7 contribute nothing. -/
theorem claim_C8_witness :
    (∀ w ∈ biomeFill 1 8 4 0 (fun _ _ _ => 7), w.sectionIdx < 1) ∧
    ({ sectionIdx := 0, x := 1, offY := 2, z := 3, val := 7 } : SectionWrite) ∈
      biomeFill 1 8 4 0 (fun _ _ _ => 7) ∧
    (∀ w ∈ blockFill 1 8 4 0 (fun _ _ _ => 9), w.sectionIdx < 1) ∧
    ({ sectionIdx := 0, x := 1, offY := 2, z := 3, val := 9 } : SectionWrite) ∈
      blockFill 1 8 4 0 (fun _ _ _ => 9) :=
  ⟨(claim_C8 1 8 8 4 0 0 (fun _ _ _ => 7) (fun _ _ _ => 9)).1,
   by
    have := (claim_C8 1 8 8 4 0 0 (fun _ _ _ => 7) (fun _ _ _ => 9)).2.1 2 1 3
      (by norm_num) (by norm_num) (by norm_num) (by norm_num)
    simpa using this,
   (claim_C8 1 8 8 4 0 0 (fun _ _ _ => 7) (fun _ _ _ => 9)).2.2.1,
   by
    have h := (claim_C8 1 8 8 4 0 0 (fun _ _ _ => 7) (fun _ _ _ => 9)).2.2.2 2 1 3
      (by norm_num) (by norm_num) (by norm_num) (by decide)
    have e : (((2 : Nat) : Int) - 0).toNat = 2 := by decide
    rw [e] at h
    simpa using h⟩

end PumpkinGen
